import Mathlib

/-!
Verification of the whisper.cpp → Podlove transcript converter
(`cpp_podlove_convert.py`).

The embedding models parsed JSON documents as an inductive `JValue`
(numbers as integers — the schema's `offsets` fields are integer
milliseconds and no claim involves non-integer numbers), Python dict
subscripting, iteration and `str.replace`, the `convert` pipeline, and the
`is_valid_whisper_json` validator including which `except` branch each
Python exception is caught by.  Reading a file and `json.loads` of its
newline-stripped text (stdlib, external to the repository) are abstracted
by a `SrcFile` record carrying an optional parse result.
-/

namespace CppPodloveConvert

/-- A parsed JSON value (the result of `json.loads`).  Objects are kept as
association lists in source order; `json.loads` builds a Python dict in
which a later duplicate key overrides an earlier one, which `jlookup`
mirrors. -/
inductive JValue where
  | null
  | bool (b : Bool)
  | num (n : Int)
  | str (s : String)
  | arr (elems : List JValue)
  | obj (fields : List (String × JValue))
deriving Repr

/-- Dict lookup: the binding of the LAST occurrence of the key wins, as in a
Python dict built by inserting the pairs in order. -/
def jlookup (fields : List (String × JValue)) (k : String) : Option JValue :=
  match fields with
  | [] => none
  | (k', v) :: rest =>
    match jlookup rest k with
    | some w => some w
    | none => if k' = k then some v else none

/-- Python exceptions that the converter's data accesses can raise. -/
inductive PyError where
  /-- `KeyError(k)`: subscripting a dict that lacks key `k`. -/
  | keyError (k : String)
  /-- `TypeError`: subscripting or iterating a value of the wrong type. -/
  | typeError
  /-- `AttributeError`: calling `.replace` on a non-string. -/
  | attributeError
  /-- `ValueError` (`json.JSONDecodeError`): malformed JSON text. -/
  | valueError
deriving Repr, DecidableEq

/-- Python subscripting `v[k]` with a string key: succeeds only on a dict
containing the key (`KeyError` when the dict lacks it, `TypeError` on any
non-dict value). -/
def subscript : JValue → String → Except PyError JValue
  | .obj fields, k =>
    match jlookup fields k with
    | some v => .ok v
    | none => .error (.keyError k)
  | _, _ => .error .typeError

/-- Python iteration `for x in v`: a list yields its elements, a string its
characters as one-character strings, a dict its keys (the source only ever
iterates lists; duplicate-key objects are modelled by their raw key list),
and any other value raises `TypeError`. -/
def pyIter : JValue → Except PyError (List JValue)
  | .arr xs => .ok xs
  | .str s => .ok (s.data.map (fun c => .str (String.mk [c])))
  | .obj fields => .ok (fields.map (fun kv => .str kv.1))
  | _ => .error .typeError

/-- Replace every comma by a period, leaving all other characters
unchanged: `s.replace(",", ".")` for a one-character pattern. -/
def commaToDot (c : Char) : Char := if c = ',' then '.' else c

/-- `s.replace(",", ".")` on a Python string. -/
def replaceCommaDot (s : String) : String := String.mk (s.data.map commaToDot)

/-- `v.replace(",", ".")` on an arbitrary value: only strings have the
`replace` method; any other value raises `AttributeError`. -/
def pyReplaceCommaDot : JValue → Except PyError String
  | .str s => .ok (replaceCommaDot s)
  | _ => .error .attributeError

/-- One destination entry, with the fields of the dict literal built inside
`convert`'s loop (`end` is a Lean keyword, hence `end_`). -/
structure DestEntry where
  start : String
  start_ms : JValue
  end_ : String
  end_ms : JValue
  speaker : String
  voice : String
  text : JValue
deriving Repr

/-- Build one destination entry from one source segment, evaluating the
dict literal's values in Python's left-to-right order:
`timestamps.from.replace`, `offsets.from`, `timestamps.to.replace`,
`offsets.to`, then `text` (`seg["timestamps"]` / `seg["offsets"]` are pure
lookups, so their repeated evaluation is shared). -/
def convSegment (speaker_id speaker : String) (seg : JValue) :
    Except PyError DestEntry :=
  match subscript seg "timestamps" with
  | .error e => .error e
  | .ok ts =>
    match subscript ts "from" with
    | .error e => .error e
    | .ok tsFrom =>
      match pyReplaceCommaDot tsFrom with
      | .error e => .error e
      | .ok startVal =>
        match subscript seg "offsets" with
        | .error e => .error e
        | .ok offs =>
          match subscript offs "from" with
          | .error e => .error e
          | .ok startMs =>
            match subscript ts "to" with
            | .error e => .error e
            | .ok tsTo =>
              match pyReplaceCommaDot tsTo with
              | .error e => .error e
              | .ok endVal =>
                match subscript offs "to" with
                | .error e => .error e
                | .ok endMs =>
                  match subscript seg "text" with
                  | .error e => .error e
                  | .ok textVal =>
                    .ok { start := startVal, start_ms := startMs,
                          end_ := endVal, end_ms := endMs,
                          speaker := speaker_id, voice := speaker,
                          text := textVal }

/-- The loop `for _entry in _source["transcription"]`: build the entries in
order; the first failing segment aborts the whole conversion (the Python
exception propagates before anything is written). -/
def convertSegs (speaker_id speaker : String) :
    List JValue → Except PyError (List DestEntry)
  | [] => .ok []
  | seg :: rest =>
    match convSegment speaker_id speaker seg with
    | .error e => .error e
    | .ok entry =>
      match convertSegs speaker_id speaker rest with
      | .error e => .error e
      | .ok entries => .ok (entry :: entries)

/-- The transformation part of `convert` on an already-parsed document:
`_source["transcription"]`, iterate, build the target list. -/
def convertDoc (doc : JValue) (speaker_id speaker : String) :
    Except PyError (List DestEntry) :=
  match subscript doc "transcription" with
  | .error e => .error e
  | .ok tr =>
    match pyIter tr with
    | .error e => .error e
    | .ok segs => convertSegs speaker_id speaker segs

/-- A source file as the pipeline observes it: whether the path exists,
whether it can be opened for reading, and the result of `json.loads` on
its newline-stripped text (`none` = not syntactically valid JSON).
Reading and parsing themselves are Python stdlib, abstracted here. -/
structure SrcFile where
  exists_ : Bool
  readable : Bool
  parsed : Option JValue
deriving Repr

/-- `load_transcript` = `json.loads(get_json(filename))`.  `get_json`
catches `IOError` (missing or unreadable file) and returns `False`, and
`json.loads(False)` then raises `TypeError`; malformed JSON raises
`json.JSONDecodeError`, a `ValueError`. -/
def load_transcript (f : SrcFile) : Except PyError JValue :=
  if f.exists_ && f.readable then
    match f.parsed with
    | some doc => .ok doc
    | none => .error .valueError
  else .error .typeError

/-- The whole `convert(source, destination, speaker_id, speaker)` call:
read + parse, transform, and only then open the destination and write.
The second component lists the destination writes performed, each carrying
the in-memory sequence handed to `json.dump` (serialization itself is
stdlib, abstracted); a raised exception propagates with no write. -/
def convert (f : SrcFile) (speaker_id speaker : String) :
    Except PyError Unit × List (List DestEntry) :=
  match load_transcript f with
  | .error e => (.error e, [])
  | .ok doc =>
    match convertDoc doc speaker_id speaker with
    | .error e => (.error e, [])
    | .ok target => (.ok (), [target])

/-- Python truthiness (`bool(v)`) of a parsed JSON value: `None`, `False`,
`0`, `""`, `[]` and `{}` are falsy, everything else truthy. -/
def truthy : JValue → Bool
  | .null => false
  | .bool b => b
  | .num n => n != 0
  | .str s => !s.data.isEmpty
  | .arr xs => !xs.isEmpty
  | .obj fields => !fields.isEmpty

/-- The underlying exception raised inside the validator's `try` block. -/
inductive VCause where
  /-- `json.JSONDecodeError` (a `ValueError`) from `json.loads`. -/
  | parseFail
  /-- `TypeError` from subscripting a non-dict parsed value. -/
  | notSubscriptable
  /-- `TypeError("The JSON lacks a required key: k")` raised when key `k`
  is present but maps to a falsy value. -/
  | falsyKey (k : String)
  /-- `KeyError(k)` from subscripting a dict that lacks key `k`. -/
  | missingKey (k : String)
  /-- `ValueError("The transcript is empty")` from the `if not json_obj`
  check. -/
  | emptyDoc
deriving Repr, DecidableEq

/-- The `ValueError` that `is_valid_whisper_json` raises to its caller,
distinguished by which branch produced it and, for the wrapped ones, by
the underlying cause included in the message. -/
inductive VError where
  /-- `File ... is non-existent` (raised before the `try`). -/
  | nonExistent
  /-- `File ... is not readable` (raised before the `try`). -/
  | notReadable
  /-- `File ... is not a valid JSON whisper.cpp transcript: {err}`: the
  `except (TypeError, ValueError)` branch. -/
  | invalidTranscript (c : VCause)
  /-- `File ... failed to load: {err}`: the catch-all `except Exception`
  branch (reached only by exceptions that are neither `TypeError` nor
  `ValueError`, i.e. the `KeyError` of a missing required key). -/
  | failedToLoad (c : VCause)
deriving Repr, DecidableEq

/-- The required top-level keys, in the order the validator checks them. -/
def requiredKeys : List String := ["systeminfo", "model", "transcription"]

/-- The loop `for _key in keys: if not json_obj[_key]: raise TypeError(...)`
over the given key list: the subscript itself may raise `TypeError`
(non-dict) or `KeyError` (key absent), and a falsy value raises the
explicit `TypeError`. -/
def checkKeys (doc : JValue) : List String → Except VCause Unit
  | [] => .ok ()
  | k :: rest =>
    match doc with
    | .obj fields =>
      match jlookup fields k with
      | some v => if truthy v then checkKeys doc rest else .error (.falsyKey k)
      | none => .error (.missingKey k)
    | _ => .error .notSubscriptable

/-- The body of the validator's `try` block after a successful parse: the
key loop, then `if not json_obj: raise ValueError(...)`. -/
def schemaCheck (doc : JValue) : Except VCause Unit :=
  match checkKeys doc requiredKeys with
  | .error c => .error c
  | .ok _ => if truthy doc then .ok () else .error .emptyDoc

/-- Which `except` branch catches each exception: `KeyError` is neither a
`TypeError` nor a `ValueError`, so only it falls through to the catch-all
`except Exception` branch; everything else is caught by
`except (TypeError, ValueError)`. -/
def wrapCause : VCause → VError
  | .missingKey k => .failedToLoad (.missingKey k)
  | c => .invalidTranscript c

/-- `is_valid_whisper_json(filename)`: existence check, readability check,
parse, then the schema checks; on success it returns the filename
unchanged. -/
def is_valid_whisper_json (f : SrcFile) (filename : String) :
    Except VError String :=
  if !f.exists_ then .error .nonExistent
  else if !f.readable then .error .notReadable
  else
    match f.parsed with
    | none => .error (.invalidTranscript .parseFail)
    | some doc =>
      match schemaCheck doc with
      | .ok _ => .ok filename
      | .error c => .error (wrapCause c)

/-- The spec's `SchemaError` kind: the wrapped
`not a valid JSON whisper.cpp transcript` failure whose cause is one of
the schema-shape checks (not the parse failure). -/
def isSchemaError : VError → Bool
  | .invalidTranscript .notSubscriptable => true
  | .invalidTranscript (.falsyKey _) => true
  | .invalidTranscript .emptyDoc => true
  | _ => false

/-- The spec's `MissingField` kind for the converter: a `KeyError`. -/
def isMissingField : PyError → Bool
  | .keyError _ => true
  | _ => false

/-- A parsed value that passes all of the validator's checks: a mapping in
which each required key is present with a truthy value. -/
def validDoc (doc : JValue) : Bool :=
  match doc with
  | .obj fields =>
    requiredKeys.all fun k =>
      match jlookup fields k with
      | some v => truthy v
      | none => false
  | _ => false

/-! ### Sample data

The single-segment scenario document of the specification's
"testable properties" section, used to instantiate the theorems below at
concrete inputs. -/

/-- The scenario segment: `timestamps` `00:00:00,000` → `00:00:02,000`,
`offsets` `0` → `2000`, `text` `"hello"`. -/
def sampleSeg : JValue :=
  .obj [("timestamps", .obj [("from", .str "00:00:00,000"),
                             ("to", .str "00:00:02,000")]),
        ("offsets", .obj [("from", .num 0), ("to", .num 2000)]),
        ("text", .str "hello")]

/-- The scenario document, with the three required keys. -/
def sampleDoc : JValue :=
  .obj [("systeminfo", .str "x"), ("model", .str "y"),
        ("transcription", .arr [sampleSeg])]

/-- The destination entry the scenario expects. -/
def sampleEntry : DestEntry :=
  { start := "00:00:00.000", start_ms := .num 0,
    end_ := "00:00:02.000", end_ms := .num 2000,
    speaker := "1", voice := "jane", text := .str "hello" }

/-! ### Inversion and structural lemmas -/

/-- Inversion for `pyReplaceCommaDot`: a successful `.replace` call means
the receiver was a string and the result its comma-to-period image. -/
theorem pyReplaceCommaDot_ok {v : JValue} {s : String}
    (h : pyReplaceCommaDot v = .ok s) :
    ∃ t, v = .str t ∧ s = replaceCommaDot t := by
  cases v <;> simp [pyReplaceCommaDot] at h
  next t => exact ⟨t, rfl, h.symm⟩

/-- Inversion for a successful segment conversion: every field access
succeeded, the two timecodes were strings, and the entry is exactly the
dict literal from the source. -/
theorem convSegment_ok_inv {sid sp : String} {seg : JValue} {e : DestEntry}
    (h : convSegment sid sp seg = .ok e) :
    ∃ ts offs fromStr toStr startMs endMs textVal,
      subscript seg "timestamps" = .ok ts ∧
      subscript ts "from" = .ok (.str fromStr) ∧
      subscript seg "offsets" = .ok offs ∧
      subscript offs "from" = .ok startMs ∧
      subscript ts "to" = .ok (.str toStr) ∧
      subscript offs "to" = .ok endMs ∧
      subscript seg "text" = .ok textVal ∧
      e = { start := replaceCommaDot fromStr, start_ms := startMs,
            end_ := replaceCommaDot toStr, end_ms := endMs,
            speaker := sid, voice := sp, text := textVal } := by
  unfold convSegment at h
  split at h
  · exact Except.noConfusion h
  next ts hts =>
  split at h
  · exact Except.noConfusion h
  next tsFrom hFrom =>
  split at h
  · exact Except.noConfusion h
  next startVal hStart =>
  split at h
  · exact Except.noConfusion h
  next offs hoffs =>
  split at h
  · exact Except.noConfusion h
  next startMs hsms =>
  split at h
  · exact Except.noConfusion h
  next tsTo hTo =>
  split at h
  · exact Except.noConfusion h
  next endVal hEnd =>
  split at h
  · exact Except.noConfusion h
  next endMs hems =>
  split at h
  · exact Except.noConfusion h
  next textVal htxt =>
  obtain ⟨fs, rfl, rfl⟩ := pyReplaceCommaDot_ok hStart
  obtain ⟨tstr, rfl, rfl⟩ := pyReplaceCommaDot_ok hEnd
  cases h
  exact ⟨ts, offs, fs, tstr, startMs, endMs, textVal,
    hts, hFrom, hoffs, hsms, hTo, hems, htxt, rfl⟩

/-- A successful loop run yields one entry per segment. -/
theorem convertSegs_ok_length {sid sp : String} :
    ∀ {segs : List JValue} {out : List DestEntry},
      convertSegs sid sp segs = .ok out → out.length = segs.length := by
  intro segs
  induction segs with
  | nil =>
    intro out h
    simp only [convertSegs] at h
    cases h
    rfl
  | cons seg rest ih =>
    intro out h
    simp only [convertSegs] at h
    cases he : convSegment sid sp seg with
    | error e => rw [he] at h; exact Except.noConfusion h
    | ok entry =>
      rw [he] at h
      cases hrest : convertSegs sid sp rest with
      | error e => rw [hrest] at h; exact Except.noConfusion h
      | ok entries =>
        rw [hrest] at h
        cases h
        simp [ih hrest]

/-- On a successful loop run, the i-th entry comes from the i-th segment. -/
theorem convertSegs_ok_get {sid sp : String} :
    ∀ {segs : List JValue} {out : List DestEntry},
      convertSegs sid sp segs = .ok out →
      ∀ i (hi : i < segs.length) (ho : i < out.length),
        convSegment sid sp (segs.get ⟨i, hi⟩) = .ok (out.get ⟨i, ho⟩) := by
  intro segs
  induction segs with
  | nil =>
    intro out h i hi ho
    exact absurd hi (Nat.not_lt_zero i)
  | cons seg rest ih =>
    intro out h i hi ho
    simp only [convertSegs] at h
    cases he : convSegment sid sp seg with
    | error e => rw [he] at h; exact Except.noConfusion h
    | ok entry =>
      rw [he] at h
      cases hrest : convertSegs sid sp rest with
      | error e => rw [hrest] at h; exact Except.noConfusion h
      | ok entries =>
        rw [hrest] at h
        cases h
        cases i with
        | zero => exact he
        | succ j =>
          exact ih hrest j (Nat.lt_of_succ_lt_succ hi)
            (Nat.lt_of_succ_lt_succ ho)

/-- When every segment converts, the loop as a whole succeeds. -/
theorem convertSegs_ok_of_forall {sid sp : String} :
    ∀ {segs : List JValue},
      (∀ seg ∈ segs, ∃ entry, convSegment sid sp seg = .ok entry) →
      ∃ out, convertSegs sid sp segs = .ok out := by
  intro segs
  induction segs with
  | nil => intro _; exact ⟨[], rfl⟩
  | cons seg rest ih =>
    intro h
    obtain ⟨entry, he⟩ := h seg (List.mem_cons_self seg rest)
    obtain ⟨entries, hrest⟩ := ih fun s hs => h s (List.mem_cons_of_mem seg hs)
    exact ⟨entry :: entries, by simp only [convertSegs]; rw [he, hrest]⟩

/-- Every entry of a successful loop run was produced from some segment. -/
theorem convertSegs_mem {sid sp : String} :
    ∀ {segs : List JValue} {out : List DestEntry},
      convertSegs sid sp segs = .ok out →
      ∀ entry ∈ out, ∃ seg ∈ segs, convSegment sid sp seg = .ok entry := by
  intro segs
  induction segs with
  | nil =>
    intro out h entry hmem
    simp only [convertSegs] at h
    cases h
    exact absurd hmem (List.not_mem_nil entry)
  | cons seg rest ih =>
    intro out h entry hmem
    simp only [convertSegs] at h
    cases he : convSegment sid sp seg with
    | error e => rw [he] at h; exact Except.noConfusion h
    | ok entry0 =>
      rw [he] at h
      cases hrest : convertSegs sid sp rest with
      | error e => rw [hrest] at h; exact Except.noConfusion h
      | ok entries =>
        rw [hrest] at h
        cases h
        rcases List.mem_cons.mp hmem with rfl | hmem0
        · exact ⟨seg, List.mem_cons_self seg rest, he⟩
        · obtain ⟨s, hs, hconv⟩ := ih hrest entry hmem0
          exact ⟨s, List.mem_cons_of_mem seg hs, hconv⟩

/-- If any segment of the list fails to convert, the whole loop raises. -/
theorem convertSegs_error_of_mem {sid sp : String} :
    ∀ {segs : List JValue} {seg : JValue} {e0 : PyError},
      seg ∈ segs → convSegment sid sp seg = .error e0 →
      ∃ e, convertSegs sid sp segs = .error e := by
  intro segs
  induction segs with
  | nil => intro seg e0 hmem _; exact absurd hmem (List.not_mem_nil seg)
  | cons s rest ih =>
    intro seg e0 hmem hbad
    rcases List.mem_cons.mp hmem with rfl | hmem0
    · exact ⟨e0, by simp only [convertSegs]; rw [hbad]⟩
    · cases he : convSegment sid sp s with
      | error e1 => exact ⟨e1, by simp only [convertSegs]; rw [he]⟩
      | ok entry =>
        obtain ⟨e, hrest⟩ := ih hmem0 hbad
        exact ⟨e, by simp only [convertSegs]; rw [he, hrest]⟩

/-- Inversion of a successful `convertDoc`: the `transcription` lookup and
iteration succeeded and the loop produced the output. -/
theorem convertDoc_ok_inv {doc : JValue} {sid sp : String}
    {out : List DestEntry} (h : convertDoc doc sid sp = .ok out) :
    ∃ tr segs, subscript doc "transcription" = .ok tr ∧
      pyIter tr = .ok segs ∧ convertSegs sid sp segs = .ok out := by
  unfold convertDoc at h
  split at h
  · exact Except.noConfusion h
  next tr htr =>
  split at h
  · exact Except.noConfusion h
  next segs hsegs =>
  exact ⟨tr, segs, htr, hsegs, h⟩

/-- Looking anything up in an empty dict yields nothing. -/
theorem jlookup_nil (k : String) : jlookup [] k = none := rfl

/-- The key loop succeeds exactly when every listed key is present with a
truthy value. -/
theorem checkKeys_ok_iff (fields : List (String × JValue)) :
    ∀ ks : List String,
      checkKeys (.obj fields) ks = .ok () ↔
        ∀ k ∈ ks, ∃ v, jlookup fields k = some v ∧ truthy v = true := by
  intro ks
  induction ks with
  | nil => simp [checkKeys]
  | cons k rest ih =>
    simp only [checkKeys]
    cases hk : jlookup fields k with
    | none => simp [hk]
    | some v =>
      cases hv : truthy v with
      | false => simp [hk, hv]
      | true => simp [hk, hv, ih]

/-- Every failure of the key loop on a dict is either a present-but-falsy
key (the explicit `TypeError`) or an absent key (`KeyError`). -/
theorem checkKeys_error_inv (fields : List (String × JValue)) :
    ∀ (ks : List String) (c : VCause),
      checkKeys (.obj fields) ks = .error c →
        (∃ k ∈ ks, ∃ v, c = .falsyKey k ∧ jlookup fields k = some v ∧
          truthy v = false) ∨
        (∃ k ∈ ks, c = .missingKey k ∧ jlookup fields k = none) := by
  intro ks
  induction ks with
  | nil => intro c h; exact Except.noConfusion h
  | cons k rest ih =>
    intro c h
    simp only [checkKeys] at h
    cases hk : jlookup fields k with
    | none =>
      rw [hk] at h
      cases h
      exact .inr ⟨k, List.mem_cons_self k rest, rfl, hk⟩
    | some v =>
      cases hv : truthy v with
      | false =>
        simp [hk, hv] at h
        subst h
        exact .inl ⟨k, List.mem_cons_self k rest, v, rfl, hk, hv⟩
      | true =>
        simp [hk, hv] at h
        rcases ih c h with ⟨k0, hk0, v0, hc, hl, ht⟩ | ⟨k0, hk0, hc, hl⟩
        · exact .inl ⟨k0, List.mem_cons_of_mem k hk0, v0, hc, hl, ht⟩
        · exact .inr ⟨k0, List.mem_cons_of_mem k hk0, hc, hl⟩

/-- The key loop on any non-dict value raises `TypeError` at the first
key. -/
theorem checkKeys_not_obj (doc : JValue)
    (h : ∀ fields, doc ≠ .obj fields) (k : String) (ks : List String) :
    checkKeys doc (k :: ks) = .error .notSubscriptable := by
  cases doc with
  | obj fields => exact absurd rfl (h fields)
  | null => rfl
  | bool b => rfl
  | num n => rfl
  | str s => rfl
  | arr xs => rfl

/-- A dict in which some key is present is itself truthy. -/
theorem truthy_obj_of_lookup {fields : List (String × JValue)}
    {k : String} {v : JValue} (h : jlookup fields k = some v) :
    truthy (.obj fields) = true := by
  cases fields with
  | nil => exact Option.noConfusion h
  | cons p rest => rfl

/-- On an existing, readable, parseable file, the validator is exactly the
schema check wrapped by the `except` branches. -/
theorem is_valid_parsed (doc : JValue) (name : String) :
    is_valid_whisper_json ⟨true, true, some doc⟩ name =
      match schemaCheck doc with
      | .ok _ => .ok name
      | .error c => .error (wrapCause c) := rfl

/-- Pointwise description of the comma-to-period replacement: the length
is preserved, every comma becomes a period, and every other character is
unchanged. -/
theorem replaceCommaDot_spec (s : String) :
    (replaceCommaDot s).data.length = s.data.length ∧
    ∀ i (hi : i < s.data.length) (ho : i < (replaceCommaDot s).data.length),
      (s.data.get ⟨i, hi⟩ = ',' →
        (replaceCommaDot s).data.get ⟨i, ho⟩ = '.') ∧
      (s.data.get ⟨i, hi⟩ ≠ ',' →
        (replaceCommaDot s).data.get ⟨i, ho⟩ = s.data.get ⟨i, hi⟩) := by
  constructor
  · simp [replaceCommaDot]
  · intro i hi ho
    have hmap : (replaceCommaDot s).data.get ⟨i, ho⟩
        = commaToDot (s.data.get ⟨i, hi⟩) := by
      show (s.data.map commaToDot).get ⟨i, ho⟩ = _
      simp [List.get_eq_getElem, List.getElem_map]
    constructor
    · intro hc
      rw [hmap, commaToDot, if_pos hc]
    · intro hc
      rw [hmap, commaToDot, if_neg hc]

/-! ### The claims -/

/-- C1: for every source document whose `transcription` key maps to a
sequence, the conversion — whenever it produces output — produces exactly
one destination entry per source segment, in the same order: the output
length equals the length of `transcription`, and the i-th output entry is
the one built from the i-th source segment, so no segment is dropped,
merged or reordered; moreover output is produced whenever every segment
converts. -/
theorem claim_C1 (doc : JValue) (sid sp : String) (segs : List JValue)
    (htr : subscript doc "transcription" = .ok (.arr segs)) :
    (∀ out, convertDoc doc sid sp = .ok out →
      out.length = segs.length ∧
      ∀ i (hi : i < segs.length) (ho : i < out.length),
        convSegment sid sp (segs.get ⟨i, hi⟩) = .ok (out.get ⟨i, ho⟩)) ∧
    ((∀ seg ∈ segs, ∃ entry, convSegment sid sp seg = .ok entry) →
      ∃ out, convertDoc doc sid sp = .ok out) := by
  constructor
  · intro out hok
    have h : convertSegs sid sp segs = .ok out := by
      unfold convertDoc at hok
      rw [htr] at hok
      simpa [pyIter] using hok
    exact ⟨convertSegs_ok_length h, fun i hi ho => convertSegs_ok_get h i hi ho⟩
  · intro hall
    obtain ⟨out, hout⟩ := convertSegs_ok_of_forall hall
    refine ⟨out, ?_⟩
    unfold convertDoc
    rw [htr]
    simpa [pyIter] using hout

/-- Witness for C1 at the specification's scenario document: one input
segment yields exactly one output entry. -/
theorem claim_C1_witness :
    ([sampleEntry] : List DestEntry).length
      = ([sampleSeg] : List JValue).length :=
  ((claim_C1 sampleDoc "1" "jane" [sampleSeg] rfl).1 [sampleEntry] rfl).1

/-- C2: in every successfully converted segment, the entry's `start` is
the segment's `timestamps.from` with every comma character replaced by a
period and no other character changed (same length, pointwise identical
away from commas), and `end` likewise comes from `timestamps.to`. -/
theorem claim_C2 (sid sp : String) (seg : JValue) (entry : DestEntry)
    (hok : convSegment sid sp seg = .ok entry) :
    ∃ ts fromStr toStr,
      subscript seg "timestamps" = .ok ts ∧
      subscript ts "from" = .ok (.str fromStr) ∧
      subscript ts "to" = .ok (.str toStr) ∧
      entry.start = replaceCommaDot fromStr ∧
      entry.end_ = replaceCommaDot toStr ∧
      entry.start.data.length = fromStr.data.length ∧
      entry.end_.data.length = toStr.data.length ∧
      (∀ i (hi : i < fromStr.data.length) (ho : i < entry.start.data.length),
        (fromStr.data.get ⟨i, hi⟩ = ',' →
          entry.start.data.get ⟨i, ho⟩ = '.') ∧
        (fromStr.data.get ⟨i, hi⟩ ≠ ',' →
          entry.start.data.get ⟨i, ho⟩ = fromStr.data.get ⟨i, hi⟩)) ∧
      (∀ i (hi : i < toStr.data.length) (ho : i < entry.end_.data.length),
        (toStr.data.get ⟨i, hi⟩ = ',' →
          entry.end_.data.get ⟨i, ho⟩ = '.') ∧
        (toStr.data.get ⟨i, hi⟩ ≠ ',' →
          entry.end_.data.get ⟨i, ho⟩ = toStr.data.get ⟨i, hi⟩)) := by
  obtain ⟨ts, offs, fromStr, toStr, sms, ems, tx,
    hts, hFrom, hoffs, hsms, hTo, hems, htxt, he⟩ := convSegment_ok_inv hok
  subst he
  exact ⟨ts, fromStr, toStr, hts, hFrom, hTo, rfl, rfl,
    (replaceCommaDot_spec fromStr).1, (replaceCommaDot_spec toStr).1,
    (replaceCommaDot_spec fromStr).2, (replaceCommaDot_spec toStr).2⟩

/-- Witness for C2 at the scenario segment (`00:00:00,000` →
`00:00:00.000` and `00:00:02,000` → `00:00:02.000`). -/
theorem claim_C2_witness :
    ∃ ts fromStr toStr,
      subscript sampleSeg "timestamps" = .ok ts ∧
      subscript ts "from" = .ok (.str fromStr) ∧
      subscript ts "to" = .ok (.str toStr) ∧
      sampleEntry.start = replaceCommaDot fromStr ∧
      sampleEntry.end_ = replaceCommaDot toStr ∧
      sampleEntry.start.data.length = fromStr.data.length ∧
      sampleEntry.end_.data.length = toStr.data.length ∧
      (∀ i (hi : i < fromStr.data.length)
          (ho : i < sampleEntry.start.data.length),
        (fromStr.data.get ⟨i, hi⟩ = ',' →
          sampleEntry.start.data.get ⟨i, ho⟩ = '.') ∧
        (fromStr.data.get ⟨i, hi⟩ ≠ ',' →
          sampleEntry.start.data.get ⟨i, ho⟩ = fromStr.data.get ⟨i, hi⟩)) ∧
      (∀ i (hi : i < toStr.data.length)
          (ho : i < sampleEntry.end_.data.length),
        (toStr.data.get ⟨i, hi⟩ = ',' →
          sampleEntry.end_.data.get ⟨i, ho⟩ = '.') ∧
        (toStr.data.get ⟨i, hi⟩ ≠ ',' →
          sampleEntry.end_.data.get ⟨i, ho⟩ = toStr.data.get ⟨i, hi⟩)) :=
  claim_C2 "1" "jane" sampleSeg sampleEntry rfl

/-- C3: in every successfully converted segment, `start_ms` is exactly the
segment's `offsets.from`, `end_ms` exactly `offsets.to` (in particular
exact integer equality when those are integers), and `text` is the
segment's `text` verbatim. -/
theorem claim_C3 (sid sp : String) (seg : JValue) (entry : DestEntry)
    (hok : convSegment sid sp seg = .ok entry) :
    ∃ offs startMs endMs textVal,
      subscript seg "offsets" = .ok offs ∧
      subscript offs "from" = .ok startMs ∧ entry.start_ms = startMs ∧
      subscript offs "to" = .ok endMs ∧ entry.end_ms = endMs ∧
      subscript seg "text" = .ok textVal ∧ entry.text = textVal ∧
      (∀ n : Int, startMs = .num n → entry.start_ms = .num n) ∧
      (∀ n : Int, endMs = .num n → entry.end_ms = .num n) := by
  obtain ⟨ts, offs, fromStr, toStr, sms, ems, tx,
    hts, hFrom, hoffs, hsms, hTo, hems, htxt, he⟩ := convSegment_ok_inv hok
  subst he
  exact ⟨offs, sms, ems, tx, hoffs, hsms, rfl, hems, rfl, htxt, rfl,
    fun n hn => by rw [hn], fun n hn => by rw [hn]⟩

/-- Witness for C3 at the scenario segment (offsets 0 and 2000 copied
verbatim, text `"hello"` copied verbatim). -/
theorem claim_C3_witness :
    ∃ offs startMs endMs textVal,
      subscript sampleSeg "offsets" = .ok offs ∧
      subscript offs "from" = .ok startMs ∧ sampleEntry.start_ms = startMs ∧
      subscript offs "to" = .ok endMs ∧ sampleEntry.end_ms = endMs ∧
      subscript sampleSeg "text" = .ok textVal ∧ sampleEntry.text = textVal ∧
      (∀ n : Int, startMs = .num n → sampleEntry.start_ms = .num n) ∧
      (∀ n : Int, endMs = .num n → sampleEntry.end_ms = .num n) :=
  claim_C3 "1" "jane" sampleSeg sampleEntry rfl

/-- C4: every entry of a successful conversion carries the caller-supplied
speaker id in `speaker` and the caller-supplied speaker name in `voice`,
so the two values are identical across all entries of one invocation. -/
theorem claim_C4 (doc : JValue) (sid sp : String) (out : List DestEntry)
    (hok : convertDoc doc sid sp = .ok out) :
    ∀ entry ∈ out, entry.speaker = sid ∧ entry.voice = sp := by
  intro entry hmem
  obtain ⟨tr, segs, htr, hsegs, hloop⟩ := convertDoc_ok_inv hok
  obtain ⟨seg, hseg, hconv⟩ := convertSegs_mem hloop entry hmem
  obtain ⟨ts, offs, fromStr, toStr, sms, ems, tx,
    _, _, _, _, _, _, _, he⟩ := convSegment_ok_inv hconv
  subst he
  exact ⟨rfl, rfl⟩

/-- Witness for C4 at the scenario document with speaker id `"1"` and
speaker name `"jane"`. -/
theorem claim_C4_witness :
    sampleEntry.speaker = "1" ∧ sampleEntry.voice = "jane" :=
  claim_C4 sampleDoc "1" "jane" [sampleEntry] rfl sampleEntry
    (List.mem_singleton.mpr rfl)

/-- Characterization of `validDoc` on a dict. -/
theorem validDoc_obj_iff (fields : List (String × JValue)) :
    validDoc (.obj fields) = true ↔
      ∀ k ∈ requiredKeys, ∃ v, jlookup fields k = some v ∧ truthy v = true := by
  simp only [validDoc, List.all_eq_true]
  constructor
  · intro h k hk
    have hm := h k hk
    cases hl : jlookup fields k with
    | none => rw [hl] at hm; exact Bool.noConfusion hm
    | some v => rw [hl] at hm; exact ⟨v, rfl, hm⟩
  · intro h k hk
    obtain ⟨v, hv, ht⟩ := h k hk
    rw [hv]
    exact ht

/-- The schema check succeeds exactly on valid documents (the trailing
`if not json_obj` test can never fire, because a dict with a present key
is nonempty). -/
theorem schemaCheck_ok_iff (doc : JValue) :
    schemaCheck doc = .ok () ↔ validDoc doc = true := by
  cases doc with
  | obj fields =>
    constructor
    · intro h
      unfold schemaCheck at h
      cases hck : checkKeys (.obj fields) requiredKeys with
      | error c => rw [hck] at h; exact Except.noConfusion h
      | ok u =>
        cases u
        exact (validDoc_obj_iff fields).mpr
          ((checkKeys_ok_iff fields requiredKeys).mp hck)
    · intro h
      have hall := (validDoc_obj_iff fields).mp h
      have hck : checkKeys (.obj fields) requiredKeys = .ok () :=
        (checkKeys_ok_iff fields requiredKeys).mpr hall
      have ht : truthy (.obj fields) = true := by
        obtain ⟨v, hv, _⟩ := hall "systeminfo" (by simp [requiredKeys])
        exact truthy_obj_of_lookup hv
      unfold schemaCheck
      simp [hck, ht]
  | null =>
    constructor
    · intro h; exact Except.noConfusion h
    · intro h; exact Bool.noConfusion h
  | bool b =>
    constructor
    · intro h; exact Except.noConfusion h
    · intro h; exact Bool.noConfusion h
  | num n =>
    constructor
    · intro h; exact Except.noConfusion h
    · intro h; exact Bool.noConfusion h
  | str s =>
    constructor
    · intro h; exact Except.noConfusion h
    · intro h; exact Bool.noConfusion h
  | arr xs =>
    constructor
    · intro h; exact Except.noConfusion h
    · intro h; exact Bool.noConfusion h

/-- A schema-check failure is either a key-loop failure or the (dead, for
dicts) emptiness check. -/
theorem schemaCheck_error_inv {doc : JValue} {c : VCause}
    (h : schemaCheck doc = .error c) :
    checkKeys doc requiredKeys = .error c ∨
      (checkKeys doc requiredKeys = .ok () ∧ c = .emptyDoc ∧
        truthy doc = false) := by
  unfold schemaCheck at h
  cases hck : checkKeys doc requiredKeys with
  | error c0 =>
    simp [hck] at h
    subst h
    exact .inl rfl
  | ok u =>
    cases u
    cases ht : truthy doc with
    | true => simp [hck, ht] at h
    | false =>
      simp [hck, ht] at h
      subst h
      exact .inr ⟨rfl, rfl, rfl⟩

/-- Only a `KeyError` reaches the catch-all branch. -/
theorem wrapCause_eq_failedToLoad {c c0 : VCause}
    (h : wrapCause c = .failedToLoad c0) :
    c = c0 ∧ ∃ k, c0 = .missingKey k := by
  cases c with
  | missingKey k =>
    simp only [wrapCause, VError.failedToLoad.injEq] at h
    exact ⟨h, k, h.symm⟩
  | parseFail => exact VError.noConfusion h
  | notSubscriptable => exact VError.noConfusion h
  | falsyKey k => exact VError.noConfusion h
  | emptyDoc => exact VError.noConfusion h

/-- C5 counterexample: on an existing readable file whose parsed value is
a mapping that merely lacks the required `transcription` key, the
validator's failure is NOT the SchemaError wrapper: the `KeyError` raised
by `json_obj["transcription"]` is neither a `TypeError` nor a
`ValueError`, so it skips the `except (TypeError, ValueError)` branch and
is wrapped by the catch-all `failed to load` branch instead. -/
theorem claim_C5_counterexample :
    is_valid_whisper_json
        ⟨true, true, some (.obj [("systeminfo", .str "x"),
                                 ("model", .str "y")])⟩ "in.json"
      = .error (.failedToLoad (.missingKey "transcription")) ∧
    isSchemaError (.failedToLoad (.missingKey "transcription")) = false :=
  ⟨rfl, rfl⟩

/-- C5 (amended): the validator succeeds — returning the path unchanged —
exactly on parseable mappings whose three required keys are all present
and truthy, and fails on everything else; a parsed value that is not a
mapping, or a required key that is present but falsy, fails with
SchemaError, while a mapping with an absent required key (including the
empty mapping) fails through the generic `failed to load` wrapper around
the `KeyError` instead. -/
theorem claim_C5_amended (doc : JValue) (name : String) :
    (is_valid_whisper_json ⟨true, true, some doc⟩ name = .ok name
      ↔ validDoc doc = true) ∧
    (∀ s, is_valid_whisper_json ⟨true, true, some doc⟩ name = .ok s →
      s = name) ∧
    (validDoc doc = false →
      ∃ e, is_valid_whisper_json ⟨true, true, some doc⟩ name = .error e ∧
        (isSchemaError e = true ∨
          ∃ k, k ∈ requiredKeys ∧ e = .failedToLoad (.missingKey k))) ∧
    ((∀ fields, doc ≠ .obj fields) →
      is_valid_whisper_json ⟨true, true, some doc⟩ name
        = .error (.invalidTranscript .notSubscriptable)) ∧
    (∀ fields, doc = .obj fields →
      (∀ k ∈ requiredKeys, jlookup fields k ≠ none) →
      validDoc doc = false →
      ∃ k, k ∈ requiredKeys ∧
        is_valid_whisper_json ⟨true, true, some doc⟩ name
          = .error (.invalidTranscript (.falsyKey k))) ∧
    (∀ k, is_valid_whisper_json ⟨true, true, some doc⟩ name
        = .error (.failedToLoad (.missingKey k)) →
      ∃ fields, doc = .obj fields ∧ jlookup fields k = none) := by
  refine ⟨?_, ?_, ?_, ?_, ?_, ?_⟩
  · constructor
    · intro h
      rw [is_valid_parsed] at h
      cases hs : schemaCheck doc with
      | ok u => cases u; exact (schemaCheck_ok_iff doc).mp hs
      | error c => rw [hs] at h; exact Except.noConfusion h
    · intro h
      rw [is_valid_parsed]
      rw [(schemaCheck_ok_iff doc).mpr h]
  · intro s h
    rw [is_valid_parsed] at h
    cases hs : schemaCheck doc with
    | ok u => rw [hs] at h; cases h; rfl
    | error c => rw [hs] at h; exact Except.noConfusion h
  · intro hvd
    rw [is_valid_parsed]
    cases hs : schemaCheck doc with
    | ok u =>
      cases u
      rw [(schemaCheck_ok_iff doc).mp hs] at hvd
      exact Bool.noConfusion hvd
    | error c =>
      refine ⟨wrapCause c, rfl, ?_⟩
      rcases schemaCheck_error_inv hs with hck | ⟨_, rfl, _⟩
      · cases doc with
        | obj fields =>
          rcases checkKeys_error_inv fields requiredKeys c hck with
            ⟨k, hk, v, rfl, _, _⟩ | ⟨k, hk, rfl, _⟩
          · exact .inl rfl
          · exact .inr ⟨k, hk, rfl⟩
        | null => cases hck; exact .inl rfl
        | bool b => cases hck; exact .inl rfl
        | num n => cases hck; exact .inl rfl
        | str s => cases hck; exact .inl rfl
        | arr xs => cases hck; exact .inl rfl
      · exact .inl rfl
  · intro hno
    rw [is_valid_parsed]
    have hck : checkKeys doc requiredKeys = .error .notSubscriptable :=
      checkKeys_not_obj doc hno "systeminfo" ["model", "transcription"]
    have hs : schemaCheck doc = .error .notSubscriptable := by
      unfold schemaCheck
      rw [hck]
    rw [hs]
    rfl
  · intro fields hdoc hp hvd
    subst hdoc
    cases hs : schemaCheck (.obj fields) with
    | ok u =>
      cases u
      rw [(schemaCheck_ok_iff _).mp hs] at hvd
      exact Bool.noConfusion hvd
    | error c =>
      rcases schemaCheck_error_inv hs with hck | ⟨hck, rfl, ht⟩
      · rcases checkKeys_error_inv fields requiredKeys c hck with
          ⟨k, hk, v, rfl, _, _⟩ | ⟨k, hk, rfl, hl⟩
        · refine ⟨k, hk, ?_⟩
          rw [is_valid_parsed, hs]
          rfl
        · exact absurd hl (hp k hk)
      · obtain ⟨v, hv, _⟩ :=
          (checkKeys_ok_iff fields requiredKeys).mp hck "systeminfo"
            (by simp [requiredKeys])
        rw [truthy_obj_of_lookup hv] at ht
        exact Bool.noConfusion ht
  · intro k h
    rw [is_valid_parsed] at h
    cases hs : schemaCheck doc with
    | ok u => rw [hs] at h; exact Except.noConfusion h
    | error c =>
      rw [hs] at h
      have hw : wrapCause c = .failedToLoad (.missingKey k) := by
        injection h
      obtain ⟨hc, _, _⟩ := wrapCause_eq_failedToLoad hw
      subst hc
      rcases schemaCheck_error_inv hs with hck | ⟨_, habs, _⟩
      · cases doc with
        | obj fields =>
          rcases checkKeys_error_inv fields requiredKeys _ hck with
            ⟨k2, _, v, habs, _, _⟩ | ⟨k2, _, heq, hl⟩
          · exact VCause.noConfusion habs
          · have hkk : k = k2 := by injection heq
            subst hkk
            exact ⟨fields, rfl, hl⟩
        | null => exact absurd (Except.error.inj hck) (by simp)
        | bool b => exact absurd (Except.error.inj hck) (by simp)
        | num n => exact absurd (Except.error.inj hck) (by simp)
        | str s => exact absurd (Except.error.inj hck) (by simp)
        | arr xs => exact absurd (Except.error.inj hck) (by simp)
      · exact VCause.noConfusion habs

/-- Witness for the amended C5: the scenario document passes and returns
the path unchanged, while a non-mapping parsed value fails. -/
theorem claim_C5_amended_witness :
    is_valid_whisper_json ⟨true, true, some sampleDoc⟩ "in.json"
      = .ok "in.json" ∧
    (∃ e, is_valid_whisper_json ⟨true, true, some (JValue.str "x")⟩
        "in.json" = .error e ∧
      (isSchemaError e = true ∨
        ∃ k, k ∈ requiredKeys ∧ e = .failedToLoad (.missingKey k))) :=
  ⟨(claim_C5_amended sampleDoc "in.json").1.mpr rfl,
   (claim_C5_amended (JValue.str "x") "in.json").2.2.1 rfl⟩

/-- C6: the validator fails with NotFound on every path that does not
exist, with NotReadable on every path that exists but cannot be opened for
reading, and with ParseError on every readable file whose content is not
valid JSON; it never succeeds on any such input. -/
theorem claim_C6 (f : SrcFile) (name : String) :
    (f.exists_ = false → is_valid_whisper_json f name = .error .nonExistent) ∧
    (f.exists_ = true → f.readable = false →
      is_valid_whisper_json f name = .error .notReadable) ∧
    (f.exists_ = true → f.readable = true → f.parsed = none →
      is_valid_whisper_json f name = .error (.invalidTranscript .parseFail)) ∧
    ((f.exists_ = false ∨ f.readable = false ∨ f.parsed = none) →
      ∀ s, is_valid_whisper_json f name ≠ .ok s) := by
  obtain ⟨he, hr, hp⟩ := f
  cases he <;> cases hr <;> cases hp <;> simp [is_valid_whisper_json]

/-- Witness for C6: a missing path, an unreadable path and an unparseable
file each fail with the corresponding error. -/
theorem claim_C6_witness :
    is_valid_whisper_json ⟨false, true, some (JValue.obj [])⟩ "a.json"
      = .error .nonExistent ∧
    is_valid_whisper_json ⟨true, false, some (JValue.obj [])⟩ "a.json"
      = .error .notReadable ∧
    is_valid_whisper_json ⟨true, true, none⟩ "a.json"
      = .error (.invalidTranscript .parseFail) :=
  ⟨(claim_C6 ⟨false, true, some (JValue.obj [])⟩ "a.json").1 rfl,
   (claim_C6 ⟨true, false, some (JValue.obj [])⟩ "a.json").2.1 rfl rfl,
   (claim_C6 ⟨true, true, none⟩ "a.json").2.2.1 rfl rfl rfl⟩

/-- C7: conversion fails with the MissingField error (`KeyError`) when the
parsed document is a mapping lacking `transcription`; a segment that lacks
`timestamps`, `offsets` or `text`, or whose sub-objects lack the required
nested `from`/`to` keys, raises exactly the `KeyError` of the missing key
(when the fields evaluated before it in the dict literal are well-typed),
and any such segment makes the whole conversion report an error rather
than produce output. -/
theorem claim_C7 (sid sp : String) :
    (∀ fields, jlookup fields "transcription" = none →
      convertDoc (.obj fields) sid sp = .error (.keyError "transcription") ∧
      isMissingField (.keyError "transcription") = true) ∧
    (∀ svv, jlookup svv "timestamps" = none →
      convSegment sid sp (.obj svv) = .error (.keyError "timestamps")) ∧
    (∀ svv ts, jlookup svv "timestamps" = some (.obj ts) →
      jlookup ts "from" = none →
      convSegment sid sp (.obj svv) = .error (.keyError "from")) ∧
    (∀ svv ts s, jlookup svv "timestamps" = some (.obj ts) →
      jlookup ts "from" = some (.str s) →
      jlookup svv "offsets" = none →
      convSegment sid sp (.obj svv) = .error (.keyError "offsets")) ∧
    (∀ svv ts s os, jlookup svv "timestamps" = some (.obj ts) →
      jlookup ts "from" = some (.str s) →
      jlookup svv "offsets" = some (.obj os) →
      jlookup os "from" = none →
      convSegment sid sp (.obj svv) = .error (.keyError "from")) ∧
    (∀ svv ts s os v, jlookup svv "timestamps" = some (.obj ts) →
      jlookup ts "from" = some (.str s) →
      jlookup svv "offsets" = some (.obj os) →
      jlookup os "from" = some v →
      jlookup ts "to" = none →
      convSegment sid sp (.obj svv) = .error (.keyError "to")) ∧
    (∀ svv ts s t os v, jlookup svv "timestamps" = some (.obj ts) →
      jlookup ts "from" = some (.str s) →
      jlookup svv "offsets" = some (.obj os) →
      jlookup os "from" = some v →
      jlookup ts "to" = some (.str t) →
      jlookup os "to" = none →
      convSegment sid sp (.obj svv) = .error (.keyError "to")) ∧
    (∀ svv ts s t os v w, jlookup svv "timestamps" = some (.obj ts) →
      jlookup ts "from" = some (.str s) →
      jlookup svv "offsets" = some (.obj os) →
      jlookup os "from" = some v →
      jlookup ts "to" = some (.str t) →
      jlookup os "to" = some w →
      jlookup svv "text" = none →
      convSegment sid sp (.obj svv) = .error (.keyError "text")) ∧
    (∀ doc segs seg e0, subscript doc "transcription" = .ok (.arr segs) →
      seg ∈ segs → convSegment sid sp seg = .error e0 →
      ∃ e, convertDoc doc sid sp = .error e) := by
  refine ⟨?_, ?_, ?_, ?_, ?_, ?_, ?_, ?_, ?_⟩
  · intro fields h
    refine ⟨?_, rfl⟩
    unfold convertDoc
    simp [subscript, h]
  · intro svv h
    simp [convSegment, subscript, h]
  · intro svv ts h1 h2
    simp [convSegment, subscript, h1, h2]
  · intro svv ts s h1 h2 h3
    simp [convSegment, subscript, pyReplaceCommaDot, h1, h2, h3]
  · intro svv ts s os h1 h2 h3 h4
    simp [convSegment, subscript, pyReplaceCommaDot, h1, h2, h3, h4]
  · intro svv ts s os v h1 h2 h3 h4 h5
    simp [convSegment, subscript, pyReplaceCommaDot, h1, h2, h3, h4, h5]
  · intro svv ts s t os v h1 h2 h3 h4 h5 h6
    simp [convSegment, subscript, pyReplaceCommaDot, h1, h2, h3, h4, h5, h6]
  · intro svv ts s t os v w h1 h2 h3 h4 h5 h6 h7
    simp [convSegment, subscript, pyReplaceCommaDot, h1, h2, h3, h4, h5, h6,
      h7]
  · intro doc segs seg e0 htr hmem hbad
    obtain ⟨e, hx⟩ := convertSegs_error_of_mem hmem hbad
    refine ⟨e, ?_⟩
    unfold convertDoc
    rw [htr]
    simpa [pyIter] using hx

/-- Witness for C7: a document without `transcription` and a segment
without `timestamps` both raise the `KeyError` of the missing key. -/
theorem claim_C7_witness :
    convertDoc (JValue.obj [("systeminfo", .str "x")]) "0" "s"
      = .error (.keyError "transcription") ∧
    convSegment "0" "s" (JValue.obj [("offsets", .obj [])])
      = .error (.keyError "timestamps") :=
  ⟨((claim_C7 "0" "s").1 [("systeminfo", .str "x")] rfl).1,
   (claim_C7 "0" "s").2.1 [("offsets", .obj [])] rfl⟩

/-- C8: a conversion that fails during reading, parsing or transformation
performs no destination write at all, and a successful conversion performs
exactly one write, of the fully built in-memory sequence. -/
theorem claim_C8 (f : SrcFile) (sid sp : String) :
    (∀ e, (convert f sid sp).1 = .error e → (convert f sid sp).2 = []) ∧
    ((convert f sid sp).1 = .ok () →
      ∃ doc target, load_transcript f = .ok doc ∧
        convertDoc doc sid sp = .ok target ∧
        (convert f sid sp).2 = [target]) := by
  cases hl : load_transcript f with
  | error e0 =>
    constructor
    · intro e _
      simp [convert, hl]
    · intro h
      simp [convert, hl] at h
  | ok doc =>
    cases hc : convertDoc doc sid sp with
    | error e0 =>
      constructor
      · intro e _
        simp [convert, hl, hc]
      · intro h
        simp [convert, hl, hc] at h
    | ok target =>
      constructor
      · intro e h
        simp [convert, hl, hc] at h
      · intro _
        exact ⟨doc, target, rfl, hc, by simp [convert, hl, hc]⟩

/-- Witness for C8: an unparseable source writes nothing, the scenario
document writes its one-entry sequence once. -/
theorem claim_C8_witness :
    (convert ⟨true, true, none⟩ "0" "s").2 = ([] : List (List DestEntry)) ∧
    (∃ doc target, load_transcript ⟨true, true, some sampleDoc⟩ = .ok doc ∧
      convertDoc doc "1" "jane" = .ok target ∧
      (convert ⟨true, true, some sampleDoc⟩ "1" "jane").2 = [target]) :=
  ⟨(claim_C8 ⟨true, true, none⟩ "0" "s").1 .valueError rfl,
   (claim_C8 ⟨true, true, some sampleDoc⟩ "1" "jane").2 rfl⟩

/-- C9: a document with all three required keys present but
`transcription` equal to the empty list fails validation with SchemaError
(the empty array is falsy), while `convert`, called directly on the same
document, succeeds and writes the empty output array. -/
theorem claim_C9 (fields : List (String × JValue)) (v1 v2 : JValue)
    (name sid sp : String)
    (h1 : jlookup fields "systeminfo" = some v1) (t1 : truthy v1 = true)
    (h2 : jlookup fields "model" = some v2) (t2 : truthy v2 = true)
    (h3 : jlookup fields "transcription" = some (.arr [])) :
    is_valid_whisper_json ⟨true, true, some (.obj fields)⟩ name
      = .error (.invalidTranscript (.falsyKey "transcription")) ∧
    isSchemaError (.invalidTranscript (.falsyKey "transcription")) = true ∧
    convert ⟨true, true, some (.obj fields)⟩ sid sp = (.ok (), [[]]) := by
  refine ⟨?_, rfl, ?_⟩
  · rw [is_valid_parsed]
    have hck : checkKeys (.obj fields) requiredKeys
        = .error (.falsyKey "transcription") := by
      have ta : truthy (.arr []) = false := rfl
      simp [requiredKeys, checkKeys, h1, t1, h2, t2, h3, ta]
    have hs : schemaCheck (.obj fields)
        = .error (.falsyKey "transcription") := by
      unfold schemaCheck
      rw [hck]
    rw [hs]
    rfl
  · have hdoc : convertDoc (.obj fields) sid sp = .ok [] := by
      unfold convertDoc
      simp [subscript, h3, pyIter, convertSegs]
    have hl : load_transcript ⟨true, true, some (.obj fields)⟩
        = .ok (.obj fields) := rfl
    simp [convert, hl, hdoc]

/-- Witness for C9 at a concrete document with empty `transcription`. -/
theorem claim_C9_witness :
    is_valid_whisper_json
        ⟨true, true, some (.obj [("systeminfo", .str "x"),
                                 ("model", .str "y"),
                                 ("transcription", .arr [])])⟩ "in.json"
      = .error (.invalidTranscript (.falsyKey "transcription")) ∧
    isSchemaError (.invalidTranscript (.falsyKey "transcription")) = true ∧
    convert ⟨true, true, some (.obj [("systeminfo", .str "x"),
                                     ("model", .str "y"),
                                     ("transcription", .arr [])])⟩ "0" "s"
      = (.ok (), [[]]) :=
  claim_C9 [("systeminfo", .str "x"), ("model", .str "y"),
            ("transcription", .arr [])]
    (.str "x") (.str "y") "in.json" "0" "s" rfl rfl rfl rfl rfl

/-- C10: the validator only checks that the three required top-level keys
are present and truthy; it never inspects the structure of
`transcription`, so any existing readable parseable mapping giving the
three keys truthy values of arbitrary type passes validation. -/
theorem claim_C10 (fields : List (String × JValue)) (name : String)
    (h : ∀ k ∈ requiredKeys, ∃ v, jlookup fields k = some v ∧
      truthy v = true) :
    is_valid_whisper_json ⟨true, true, some (.obj fields)⟩ name
      = .ok name := by
  rw [is_valid_parsed]
  have hck : checkKeys (.obj fields) requiredKeys = .ok () :=
    (checkKeys_ok_iff fields requiredKeys).mpr h
  have ht : truthy (.obj fields) = true := by
    obtain ⟨v, hv, _⟩ := h "systeminfo" (by simp [requiredKeys])
    exact truthy_obj_of_lookup hv
  have hs : schemaCheck (.obj fields) = .ok () := by
    unfold schemaCheck
    simp [hck, ht]
  rw [hs]

/-- Witness for C10: a document whose `transcription` is a non-empty
string — not an array of segments — still passes validation. -/
theorem claim_C10_witness :
    is_valid_whisper_json
        ⟨true, true, some (.obj [("systeminfo", .str "s"),
                                 ("model", .str "m"),
                                 ("transcription", .str "hello")])⟩ "in.json"
      = .ok "in.json" :=
  claim_C10 [("systeminfo", .str "s"), ("model", .str "m"),
             ("transcription", .str "hello")] "in.json"
    (by
      intro k hk
      simp only [requiredKeys, List.mem_cons, List.not_mem_nil,
        or_false] at hk
      rcases hk with rfl | rfl | rfl <;> exact ⟨_, rfl, rfl⟩)

end CppPodloveConvert
